import Mathlib

/-!
# GPX-Analyzer: verification of the segmentation and statistics engine

Shallow embedding of the GPX-Analyzer repository (`src/gpx.py`, `src/utils.py`,
`src/ai.py`) in Lean 4, over exact rational arithmetic.

Modelling conventions:
* Python floats are modelled as `ℚ` (exact arithmetic); Python `round(x, n)`
  is modelled as exact round-half-even to `n` decimal places.
* `utils.haversine` is transcendental (sin/cos/asin/sqrt); the segmenter only
  consumes its output through `calculate_point_geo_data`, so the great-circle
  distance is abstracted as a parameter `gdist : GPXPoint → GPXPoint → ℚ`.
  All segmenter theorems are proved for every `gdist`; concrete evaluations
  instantiate `gdist` with a simple computable metric.
* `datetime` values are modelled as `Option ℚ` (seconds); the `HH:MM:SS`
  string formatting of a duration is abstracted to the elapsed seconds,
  and ISO time strings to the underlying time value (no claim concerns the
  textual formatting).
* The fallible external collaborators (file open + `gpxpy.parse` in
  `process_gpx`, the anthropic client call in `generate_segment_description`)
  are modelled as `Except` values supplied by the caller.
-/

/-- A single point of a GPX segment, as built by `__get_segment_points`
(`src/gpx.py`, class `GPXPoint`). -/
structure GPXPoint where
  latitude : ℚ
  longitude : ℚ
  elevation : ℚ
  time : Option ℚ
  speed : Option ℚ
deriving DecidableEq, Repr

/-- The per-point record appended to `segment_points` in `process_gpx`
(`src/gpx.py` lines 275-280: the dict with keys `point`, `distance`,
`cumulative_distance`, `gradient`). -/
structure PointData where
  point : GPXPoint
  distance : ℚ
  cumulative_distance : ℚ
  gradient : ℚ
deriving DecidableEq, Repr

/-- The raw segment dict appended to `segments` in `process_gpx`
(`src/gpx.py` lines 296-311). -/
structure RawSegment where
  number : ℕ
  distance : ℚ
  elevation_gain : ℚ
  elevation_loss : ℚ
  avg_grade : ℚ
  max_grade : ℚ
  min_grade : ℚ
  min_elevation : ℚ
  max_elevation : ℚ
  start_distance : ℚ
  start_point : GPXPoint
  end_point : GPXPoint
deriving DecidableEq, Repr

/-- The final per-segment record (`src/gpx.py`, class `GPXSegment`).
`start_time`/`end_time` hold the time value (source: its ISO string, or `''`
when absent, modelled as `none`); `duration` holds the elapsed seconds
(source: their `HH:MM:SS` rendering). -/
structure GPXSegment where
  number : ℕ
  start_elevation : ℚ
  end_elevation : ℚ
  min_elevation : ℚ
  max_elevation : ℚ
  distance : ℚ
  start_distance : ℚ
  end_distance : ℚ
  elevation_gain : ℚ
  elevation_loss : ℚ
  avg_grade : ℚ
  max_grade : ℚ
  min_grade : ℚ
  start_time : Option ℚ
  end_time : Option ℚ
  duration : Option ℚ
  description : Option String
deriving DecidableEq, Repr

/-- Errors raised while retrieving or parsing the GPX input (file open /
`gpxpy.parse` in `process_gpx`; `GPXProviderError` in `src/provider.py`). -/
inductive SourceError where
  | fileNotFound
  | malformedXml
  | providerError
deriving DecidableEq, Repr

/-- Failure of the anthropic API call in `generate_segment_description`. -/
inductive ApiError where
  | apiError
deriving DecidableEq, Repr

/-- `utils.calculate_gradient` (`src/utils.py` lines 29-44). -/
def calculate_gradient (distance elevation_diff : ℚ) : ℚ :=
  if distance = 0 then 0
  else elevation_diff / (distance * 1000) * 100

/-- `utils.calculate_point_geo_data` (`src/utils.py` lines 47-68), with the
haversine call abstracted as `gdist`.  Returns
`(point_distance, elevation_diff, gradient)`. -/
def calculate_point_geo_data (gdist : GPXPoint → GPXPoint → ℚ)
    (point previous_point : GPXPoint) : ℚ × ℚ × ℚ :=
  let point_distance := gdist previous_point point
  let elevation_diff := point.elevation - previous_point.elevation
  let gradient := calculate_gradient point_distance elevation_diff
  (point_distance, elevation_diff, gradient)

/-- `gpx.__update_elevation_data` (`src/gpx.py` lines 100-117). -/
def update_elevation_data (elevation_gain elevation_loss distance_diff : ℚ) :
    ℚ × ℚ :=
  if distance_diff > 0 then (elevation_gain + distance_diff, elevation_loss)
  else if distance_diff < 0 then (elevation_gain, elevation_loss + |distance_diff|)
  else (elevation_gain, elevation_loss)

/-- Round-half-even of a rational to an integer: the tie-breaking Python's
built-in `round` uses. -/
def round_half_even (y : ℚ) : ℤ :=
  if y - ⌊y⌋ = 1 / 2 then (if ⌊y⌋ % 2 = 0 then ⌊y⌋ else ⌊y⌋ + 1)
  else ⌊y + 1 / 2⌋

/-- Python's `round(x, n)`: round to `n` decimal places, ties to even. -/
def round_to (n : ℕ) (x : ℚ) : ℚ :=
  (round_half_even (x * 10 ^ n) : ℚ) / 10 ^ n

/-- `gpx.__get_segment_points` (`src/gpx.py` lines 72-97): latitude and
longitude are rounded to 6 decimal places, the rest is kept. -/
def get_segment_points (points : List GPXPoint) : List GPXPoint :=
  if points = [] then []
  else points.map fun p =>
    { latitude := round_to 6 p.latitude
      longitude := round_to 6 p.longitude
      elevation := p.elevation
      time := p.time
      speed := p.speed }

/-- `gpx.__calculate_segment_statistics` (`src/gpx.py` lines 120-144).
Returns `(min_elevation, max_elevation, avg_grade, max_grade, min_grade)`.
Python's `min`/`max` on the (always nonempty at the call site) elevation list
is modelled with a junk value `0` on `[]`. -/
def calculate_segment_statistics (segment_points : List PointData)
    (segment_grades : List ℚ) : ℚ × ℚ × ℚ × ℚ × ℚ :=
  let elevations := segment_points.map fun p => p.point.elevation
  let min_elevation := match elevations with
    | [] => 0
    | e :: es => es.foldl min e
  let max_elevation := match elevations with
    | [] => 0
    | e :: es => es.foldl max e
  let avg_grade := if segment_grades = [] then 0
    else segment_grades.sum / segment_grades.length
  let max_grade := match segment_grades with
    | [] => 0
    | g :: gs => gs.foldl max g
  let min_grade := match segment_grades with
    | [] => 0
    | g :: gs => gs.foldl min g
  (min_elevation, max_elevation, avg_grade, max_grade, min_grade)

/-- `gpx.__calculate_segment_duration` (`src/gpx.py` lines 147-163): the
elapsed time between the two points when both carry a time, else `none`
(the source formats the elapsed seconds as `HH:MM:SS`; the formatting is
abstracted away). -/
def calculate_segment_duration (start_point end_point : GPXPoint) : Option ℚ :=
  match start_point.time, end_point.time with
  | some t1, some t2 => some (t2 - t1)
  | _, _ => none

/-- The mutable locals of the per-track-segment loop of `process_gpx`
(`src/gpx.py` lines 239-251), plus the `segments` output list
(line 235, shared across all tracks and raw segments). -/
structure LoopState where
  cumulative_distance : ℚ
  segment_start_distance : ℚ
  segment_distance : ℚ
  segment_points : List PointData
  segment_grades : List ℚ
  segment_elevation_gain : ℚ
  segment_elevation_loss : ℚ
  segment_number : ℕ
  previous_point : Option GPXPoint
  previous_duration : Option ℚ
  segments : List RawSegment
deriving DecidableEq, Repr

/-- The loop-variable initialisation of `process_gpx` (lines 239-251):
everything reset, except `segments` which persists across raw segments. -/
def initLoopState (segments : List RawSegment) : LoopState :=
  { cumulative_distance := 0
    segment_start_distance := 0
    segment_distance := 0
    segment_points := []
    segment_grades := []
    segment_elevation_gain := 0
    segment_elevation_loss := 0
    segment_number := 1
    previous_point := none
    previous_duration := none
    segments := segments }

/-- The raw segment dict built at `src/gpx.py` lines 296-311, from a state
whose point buffer is `p :: ps`. -/
def mkRawSegment (st : LoopState) (p : PointData) (ps : List PointData) :
    RawSegment :=
  let stats := calculate_segment_statistics (p :: ps) st.segment_grades
  { number := st.segment_number
    distance := st.segment_distance
    elevation_gain := st.segment_elevation_gain
    elevation_loss := st.segment_elevation_loss
    avg_grade := stats.2.2.1
    max_grade := stats.2.2.2.1
    min_grade := stats.2.2.2.2
    min_elevation := stats.1
    max_elevation := stats.2.1
    start_distance := st.segment_start_distance
    start_point := p.point
    end_point := (ps.getLastD p).point }

/-- The segment-completion block of `process_gpx` (lines 288-320): emit the
segment built from the buffer and reset the per-segment state.  The buffer is
never empty when the source reaches this block (a point was just appended);
the `[]` branch is dead code kept only for totality. -/
def closeSegment (st : LoopState) : LoopState :=
  match st.segment_points with
  | [] => st
  | p :: ps =>
      { st with
        segments := st.segments ++ [mkRawSegment st p ps]
        segment_number := st.segment_number + 1
        segment_start_distance := st.cumulative_distance
        segment_distance := 0
        segment_points := []
        segment_grades := []
        segment_elevation_gain := 0
        segment_elevation_loss := 0 }

/-- Lines 259-280 of `process_gpx`: compute the point-to-point data (when a
previous point exists), accumulate distances, grades and elevation gain/loss,
and append the point record to the buffer. -/
def appendPoint (gdist : GPXPoint → GPXPoint → ℚ) (st : LoopState)
    (point : GPXPoint) : LoopState :=
  match st.previous_point with
  | none =>
      { st with
        segment_points := st.segment_points ++
          [{ point := point, distance := 0,
             cumulative_distance := st.cumulative_distance, gradient := 0 }] }
  | some previous_point =>
      let pdg := calculate_point_geo_data gdist point previous_point
      let point_distance := pdg.1
      let elevation_diff := pdg.2.1
      let gradient := pdg.2.2
      let cum := st.cumulative_distance + point_distance
      let gl := update_elevation_data st.segment_elevation_gain
        st.segment_elevation_loss elevation_diff
      { st with
        cumulative_distance := cum
        segment_distance := st.segment_distance + point_distance
        segment_grades := st.segment_grades ++ [gradient]
        segment_elevation_gain := gl.1
        segment_elevation_loss := gl.2
        segment_points := st.segment_points ++
          [{ point := point, distance := point_distance,
             cumulative_distance := cum, gradient := gradient }] }

/-- One iteration of the point loop of `process_gpx` (lines 254-324):
skip leading zero-elevation points, append the point, close the segment when
the boundary condition fires, and record the point as previous. -/
def processPoint (gdist : GPXPoint → GPXPoint → ℚ) (segment_length : ℚ)
    (last_index : ℕ) (st : LoopState) (point_idx : ℕ) (point : GPXPoint) :
    LoopState :=
  if point.elevation = 0 ∧ st.previous_duration = none then st
  else
    let st1 := appendPoint gdist st point
    let st2 :=
      if st1.segment_distance ≥ segment_length ∨
          (point_idx = last_index ∧ st1.segment_points.length ≥ 2) then
        closeSegment st1
      else st1
    { st2 with previous_point := some point,
               previous_duration := some point.elevation }

/-- The whole point loop of `process_gpx` for one raw GPX track-segment
(lines 239-324): fold `processPoint` over the enumerated points, starting
from freshly reset loop variables (carrying the `segments` emitted so far). -/
def process_track_segment (gdist : GPXPoint → GPXPoint → ℚ)
    (segment_length : ℚ) (init_segments : List RawSegment)
    (segment : List GPXPoint) : LoopState :=
  ((get_segment_points segment).enum).foldl
    (fun st ip => processPoint gdist segment_length (segment.length - 1) st ip.1 ip.2)
    (initLoopState init_segments)

/-- `gpx.__process_segment` (`src/gpx.py` lines 166-205): round everything to
2 decimal places and build the final record.  `ai_prompt` is the
description-generation collaborator (`generate_segment_description` with a
prompt, in the source), applied only when a prompt was given. -/
def process_segment (ai_prompt : Option (RawSegment → String))
    (segment : RawSegment) : GPXSegment :=
  let duration := calculate_segment_duration segment.start_point segment.end_point
  let description := ai_prompt.map fun f => f segment
  { number := segment.number
    start_elevation := round_to 2 segment.start_point.elevation
    end_elevation := round_to 2 segment.end_point.elevation
    min_elevation := round_to 2 segment.min_elevation
    max_elevation := round_to 2 segment.max_elevation
    distance := round_to 2 segment.distance
    start_distance := round_to 2 segment.start_distance
    end_distance := round_to 2 (segment.start_distance + segment.distance)
    elevation_gain := round_to 2 segment.elevation_gain
    elevation_loss := round_to 2 segment.elevation_loss
    avg_grade := round_to 2 segment.avg_grade
    max_grade := round_to 2 segment.max_grade
    min_grade := round_to 2 segment.min_grade
    start_time := segment.start_point.time
    end_time := segment.end_point.time
    duration := duration
    description := description }

/-- The body of the `try` block of `process_gpx` (`src/gpx.py` lines 235-326)
after a successful parse: iterate all tracks and raw track-segments,
accumulating into one shared `segments` list, then map `__process_segment`
over it. -/
def process_gpx (gdist : GPXPoint → GPXPoint → ℚ)
    (ai_prompt : Option (RawSegment → String))
    (tracks : List (List (List GPXPoint))) (segment_length : ℚ) :
    List GPXSegment :=
  let segments := tracks.foldl
    (fun acc track => track.foldl
      (fun acc2 seg => (process_track_segment gdist segment_length acc2 seg).segments)
      acc)
    []
  segments.map (process_segment ai_prompt)

/-- `gpx.process_gpx` with its `try`/`except` wrapper (lines 230-330): the
file open + `gpxpy.parse` outcome is supplied as an `Except`; any failure is
caught, printed, and turned into the empty list (line 330: `return []`). -/
def process_gpx_result (gdist : GPXPoint → GPXPoint → ℚ)
    (ai_prompt : Option (RawSegment → String))
    (parsed : Except SourceError (List (List (List GPXPoint))))
    (segment_length : ℚ) : List GPXSegment :=
  match parsed with
  | Except.ok tracks => process_gpx gdist ai_prompt tracks segment_length
  | Except.error _ => []

/-- `ai.generate_segment_description` (`src/ai.py` lines 5-34): the anthropic
client call is the external collaborator, abstracted as `api`; the `try`
block returns its text on success, and any exception is caught and replaced
by the placeholder `"-"`. -/
def generate_segment_description
    (api : RawSegment → String → Except ApiError String)
    (segment_data : RawSegment) (prompt_str : String) : String :=
  match api segment_data prompt_str with
  | Except.ok text => text
  | Except.error _ => "-"

/-- The per-raw-track-segment output of `process_gpx`, as final `GPXSegment`
records (the restriction of line 326 to the segments of one raw
track-segment, processed without an AI prompt). -/
def track_segment_route (gdist : GPXPoint → GPXPoint → ℚ)
    (segment_length : ℚ) (segment : List GPXPoint) : List GPXSegment :=
  ((process_track_segment gdist segment_length [] segment).segments).map
    (process_segment none)

/-! ## Concrete instantiations used in counterexamples and witnesses

`process_gpx` instantiates the distance oracle with `utils.haversine`, which
is transcendental and therefore kept abstract; concrete runs below use the
simple latitude metric `cdist` (nonnegative, symmetric, zero on equal
coordinates, like the haversine distance). -/

/-- A concrete distance oracle for evaluating the segmenter on explicit
inputs: the absolute latitude difference. -/
def cdist (a b : GPXPoint) : ℚ :=
  if a.latitude ≤ b.latitude then b.latitude - a.latitude
  else a.latitude - b.latitude

/-- Concrete track points: latitudes 0, 1, 1.4, 1.5 (with `cdist`, the
consecutive distances are 1, 0.4, 0.1 km) and strictly increasing
elevations 5, 15, 19, 20 m. -/
def cexP1 : GPXPoint := ⟨0, 0, 5, none, none⟩

/-- Second concrete point: latitude 1, elevation 15. -/
def cexP2 : GPXPoint := ⟨1, 0, 15, none, none⟩

/-- Third concrete point: latitude 1.4, elevation 19. -/
def cexP3 : GPXPoint := ⟨7/5, 0, 19, none, none⟩

/-- Fourth concrete point: latitude 1.5, elevation 20. -/
def cexP4 : GPXPoint := ⟨3/2, 0, 20, none, none⟩

/-- A leading track point with elevation exactly 0 (skipped by the code). -/
def c6q1 : GPXPoint := ⟨0, 0, 0, none, none⟩

/-- The same point with a nonzero elevation (processed by the code). -/
def c6q1alt : GPXPoint := ⟨0, 0, 3, none, none⟩

/-- A second track point 0.5 km away. -/
def c6q2 : GPXPoint := ⟨1/2, 0, 7, none, none⟩

/-- A concrete raw segment record (the first segment of the concrete run
on `cexP1`-`cexP4`). -/
def cexRawSeg : RawSegment :=
  ⟨1, 1, 10, 0, 1, 1, 1, 5, 15, 0, cexP1, cexP2⟩

/-- The first final segment of the concrete run on `cexP1`-`cexP4`
(`process_segment` applied to `cexRawSeg`). -/
def cexGPXSeg1 : GPXSegment :=
  ⟨1, 5, 15, 5, 15, 1, 0, 1, 10, 0, 1, 1, 1, none, none, none, none⟩

/-- Concrete points for the one-point-buffer run: latitudes 0, 1, 2.5 and
elevations 5, 6, 9. -/
def c9r1 : GPXPoint := ⟨0, 0, 5, none, none⟩

/-- Second point of the one-point-buffer run. -/
def c9r2 : GPXPoint := ⟨1, 0, 6, none, none⟩

/-- Third point of the one-point-buffer run: 1.5 km past `c9r2`. -/
def c9r3 : GPXPoint := ⟨5/2, 0, 9, none, none⟩

/-! ## Claim-side definitions

Definitions phrased after the wording of the specification and the claims,
to be compared with the behaviour of the embedded code. -/

/-- The skip condition of `process_gpx` line 256, on the state before the
point is processed: elevation exactly 0 and no point processed yet. -/
def pointSkipped (st : LoopState) (point : GPXPoint) : Prop :=
  point.elevation = 0 ∧ st.previous_duration = none

instance (st : LoopState) (point : GPXPoint) : Decidable (pointSkipped st point) :=
  inferInstanceAs (Decidable (point.elevation = 0 ∧ st.previous_duration = none))

/-- The distance contributed by the current point (`point_distance`,
`src/gpx.py` lines 260-264): 0 when no previous point exists, else the
geo distance from the previous point. -/
def stepDistance (gdist : GPXPoint → GPXPoint → ℚ) (st : LoopState)
    (point : GPXPoint) : ℚ :=
  match st.previous_point with
  | none => 0
  | some previous_point => gdist previous_point point

/-- The segment-boundary condition of the claims, stated on the state before
the current point is processed: the point is processed (not skipped), and
after accounting it EITHER (a) the running segment distance reaches the
target segment length, OR (b) the point is the last point of the input and
the segment buffer holds at least 2 points. -/
def closeCondition (gdist : GPXPoint → GPXPoint → ℚ) (segment_length : ℚ)
    (last_index : ℕ) (st : LoopState) (point_idx : ℕ) (point : GPXPoint) :
    Prop :=
  ¬ pointSkipped st point ∧
    (st.segment_distance + stepDistance gdist st point ≥ segment_length ∨
      (point_idx = last_index ∧ st.segment_points.length + 1 ≥ 2))

instance (gdist : GPXPoint → GPXPoint → ℚ) (segment_length : ℚ)
    (last_index : ℕ) (st : LoopState) (point_idx : ℕ) (point : GPXPoint) :
    Decidable (closeCondition gdist segment_length last_index st point_idx point) :=
  inferInstanceAs (Decidable (_ ∧ (_ ∨ _)))

/-- Loop invariant for the elevation bookkeeping: gain and loss are
nonnegative (in the running state and in every emitted segment); while no
segment has been emitted yet, the running `gain - loss` telescopes from the
first buffered point to the last buffered point (which is also the previous
point), so that the first emitted segment satisfies
`gain - loss = end elevation - start elevation`. -/
def gainLossInv (st : LoopState) : Prop :=
  0 ≤ st.segment_elevation_gain ∧ 0 ≤ st.segment_elevation_loss ∧
  (∀ s ∈ st.segments, 0 ≤ s.elevation_gain ∧ 0 ≤ s.elevation_loss) ∧
  (st.segments = [] →
    (st.segment_points = [] → st.previous_point = none ∧
      st.segment_elevation_gain = 0 ∧ st.segment_elevation_loss = 0) ∧
    (∀ p ps, st.segment_points = p :: ps →
      st.previous_point = some ((ps.getLastD p).point) ∧
      st.segment_elevation_gain - st.segment_elevation_loss =
        (ps.getLastD p).point.elevation - p.point.elevation)) ∧
  (∀ s, st.segments.head? = some s →
    s.elevation_gain - s.elevation_loss =
      s.end_point.elevation - s.start_point.elevation)

/-- Loop invariant for the distance bookkeeping: the segment start distance
plus the running segment distance equals the cumulative distance, emitted
segments chain (`start + distance` of one segment is the `start` of the
next), and the last emitted segment chains to the running segment start. -/
def distanceInv (st : LoopState) : Prop :=
  st.segment_start_distance + st.segment_distance = st.cumulative_distance ∧
  List.Chain' (fun a b => a.start_distance + a.distance = b.start_distance)
    st.segments ∧
  (∀ s, st.segments.getLast? = some s →
    s.start_distance + s.distance = st.segment_start_distance)

/-- Loop invariant for the segment numbering: the next number is one past
the count of emitted segments, and the emitted numbers are `1, 2, ...` in
emission order; moreover the first emitted segment starts at distance 0. -/
def numberInv (st : LoopState) : Prop :=
  st.segment_number = st.segments.length + 1 ∧
  st.segments.map RawSegment.number = List.range' 1 st.segments.length ∧
  (st.segments = [] → st.segment_start_distance = 0) ∧
  (∀ s, st.segments.head? = some s → s.start_distance = 0)

/-- Prefix the emitted-segments list of a state (used to factor the shared
`segments` list of `process_gpx` across raw track-segments). -/
def withSegs (pre : List RawSegment) (st : LoopState) : LoopState :=
  { st with segments := pre ++ st.segments }

/-! ## Basic lemmas about one loop iteration -/

theorem appendPoint_segments (gdist : GPXPoint → GPXPoint → ℚ)
    (st : LoopState) (point : GPXPoint) :
    (appendPoint gdist st point).segments = st.segments := by
  unfold appendPoint
  cases st.previous_point <;> rfl

theorem appendPoint_segment_distance (gdist : GPXPoint → GPXPoint → ℚ)
    (st : LoopState) (point : GPXPoint) :
    (appendPoint gdist st point).segment_distance =
      st.segment_distance + stepDistance gdist st point := by
  unfold appendPoint stepDistance
  cases st.previous_point
  · exact (add_zero _).symm
  · rfl

theorem appendPoint_segment_points (gdist : GPXPoint → GPXPoint → ℚ)
    (st : LoopState) (point : GPXPoint) :
    ∃ pd : PointData, pd.point = point ∧
      pd.distance = stepDistance gdist st point ∧
      (appendPoint gdist st point).segment_points = st.segment_points ++ [pd] := by
  unfold appendPoint stepDistance
  cases st.previous_point
  · exact ⟨_, rfl, rfl, rfl⟩
  · exact ⟨_, rfl, rfl, rfl⟩

theorem appendPoint_segment_points_length (gdist : GPXPoint → GPXPoint → ℚ)
    (st : LoopState) (point : GPXPoint) :
    (appendPoint gdist st point).segment_points.length =
      st.segment_points.length + 1 := by
  obtain ⟨pd, -, -, h⟩ := appendPoint_segment_points gdist st point
  rw [h, List.length_append, List.length_singleton]

theorem appendPoint_segment_points_ne_nil (gdist : GPXPoint → GPXPoint → ℚ)
    (st : LoopState) (point : GPXPoint) :
    (appendPoint gdist st point).segment_points ≠ [] := by
  obtain ⟨pd, -, -, h⟩ := appendPoint_segment_points gdist st point
  simp [h]

theorem appendPoint_cumulative_distance (gdist : GPXPoint → GPXPoint → ℚ)
    (st : LoopState) (point : GPXPoint) :
    (appendPoint gdist st point).cumulative_distance =
      st.cumulative_distance + stepDistance gdist st point := by
  unfold appendPoint stepDistance
  cases st.previous_point
  · exact (add_zero _).symm
  · rfl

theorem appendPoint_segment_start_distance (gdist : GPXPoint → GPXPoint → ℚ)
    (st : LoopState) (point : GPXPoint) :
    (appendPoint gdist st point).segment_start_distance =
      st.segment_start_distance := by
  unfold appendPoint
  cases st.previous_point <;> rfl

theorem appendPoint_segment_number (gdist : GPXPoint → GPXPoint → ℚ)
    (st : LoopState) (point : GPXPoint) :
    (appendPoint gdist st point).segment_number = st.segment_number := by
  unfold appendPoint
  cases st.previous_point <;> rfl

theorem closeSegment_eq (st : LoopState) (p : PointData) (ps : List PointData)
    (h : st.segment_points = p :: ps) :
    closeSegment st = { st with
      segments := st.segments ++ [mkRawSegment st p ps]
      segment_number := st.segment_number + 1
      segment_start_distance := st.cumulative_distance
      segment_distance := 0
      segment_points := []
      segment_grades := []
      segment_elevation_gain := 0
      segment_elevation_loss := 0 } := by
  unfold closeSegment
  split
  · next heq => rw [heq] at h; exact absurd h (List.noConfusion)
  · next q qs heq =>
      rw [heq] at h
      cases h
      rfl

theorem processPoint_of_skip (gdist : GPXPoint → GPXPoint → ℚ)
    (segment_length : ℚ) (last_index : ℕ) (st : LoopState) (point_idx : ℕ)
    (point : GPXPoint) (h : pointSkipped st point) :
    processPoint gdist segment_length last_index st point_idx point = st := by
  unfold processPoint
  exact if_pos h

theorem processPoint_not_skip (gdist : GPXPoint → GPXPoint → ℚ)
    (segment_length : ℚ) (last_index : ℕ) (st : LoopState) (point_idx : ℕ)
    (point : GPXPoint) (h : ¬ pointSkipped st point) :
    processPoint gdist segment_length last_index st point_idx point =
      { (if (appendPoint gdist st point).segment_distance ≥ segment_length ∨
            (point_idx = last_index ∧
              (appendPoint gdist st point).segment_points.length ≥ 2) then
          closeSegment (appendPoint gdist st point)
        else appendPoint gdist st point) with
        previous_point := some point,
        previous_duration := some point.elevation } := by
  unfold processPoint
  exact if_neg h

theorem closeCondition_iff (gdist : GPXPoint → GPXPoint → ℚ)
    (segment_length : ℚ) (last_index : ℕ) (st : LoopState) (point_idx : ℕ)
    (point : GPXPoint) :
    closeCondition gdist segment_length last_index st point_idx point ↔
      (¬ pointSkipped st point ∧
        ((appendPoint gdist st point).segment_distance ≥ segment_length ∨
          (point_idx = last_index ∧
            (appendPoint gdist st point).segment_points.length ≥ 2))) := by
  unfold closeCondition
  rw [appendPoint_segment_distance, appendPoint_segment_points_length]

/-! ## A generic invariant principle for the point loop -/

theorem foldl_preserves {α σ : Type _} (f : σ → α → σ) (P : σ → Prop)
    (hf : ∀ s a, P s → P (f s a)) :
    ∀ (l : List α) (s : σ), P s → P (l.foldl f s)
  | [], _, hs => hs
  | a :: l, s, hs => foldl_preserves f P hf l (f s a) (hf s a hs)

theorem process_track_segment_invariant (gdist : GPXPoint → GPXPoint → ℚ)
    (segment_length : ℚ) (init_segments : List RawSegment)
    (segment : List GPXPoint) (P : LoopState → Prop)
    (hinit : P (initLoopState init_segments))
    (hstep : ∀ st i p, P st →
      P (processPoint gdist segment_length (segment.length - 1) st i p)) :
    P (process_track_segment gdist segment_length init_segments segment) := by
  unfold process_track_segment
  exact foldl_preserves _ P (fun s a hs => hstep s a.1 a.2 hs) _ _ hinit

/-! ## Claim C1: the segment-closing condition -/

/-- Claim C1: for every track-segment point sequence processed by
`process_gpx`, the current segment is closed (emitted) exactly when either
(a) the running segment distance is at least the configured target segment
length, or (b) the current point is the last point of the input and the
segment buffer holds at least 2 points; no other condition closes a segment
(in particular a skipped point closes nothing), and a trailing fragment
satisfying neither condition is never emitted (each loop iteration that does
not satisfy the condition leaves `segments` unchanged, and
`process_track_segment` returns exactly the `segments` emitted by the loop,
discarding whatever remains in the buffer). -/
theorem C1_segment_closes_exactly_on_condition (gdist : GPXPoint → GPXPoint → ℚ)
    (segment_length : ℚ) (last_index : ℕ) (st : LoopState) (point_idx : ℕ)
    (point : GPXPoint) :
    ((processPoint gdist segment_length last_index st point_idx point).segments.length
        = st.segments.length + 1 ↔
      closeCondition gdist segment_length last_index st point_idx point) ∧
    (¬ closeCondition gdist segment_length last_index st point_idx point →
      (processPoint gdist segment_length last_index st point_idx point).segments
        = st.segments) := by
  by_cases hs : pointSkipped st point
  · rw [processPoint_of_skip gdist segment_length last_index st point_idx point hs]
    refine ⟨⟨fun h => absurd h (by simp), fun hc => absurd hs hc.1⟩, fun _ => rfl⟩
  · rw [processPoint_not_skip gdist segment_length last_index st point_idx point hs]
    by_cases hc : (appendPoint gdist st point).segment_distance ≥ segment_length ∨
        (point_idx = last_index ∧
          (appendPoint gdist st point).segment_points.length ≥ 2)
    · rw [if_pos hc]
      have hcc : closeCondition gdist segment_length last_index st point_idx point :=
        (closeCondition_iff gdist segment_length last_index st point_idx point).mpr
          ⟨hs, hc⟩
      obtain ⟨p, ps, hpp⟩ := List.exists_cons_of_ne_nil
        (appendPoint_segment_points_ne_nil gdist st point)
      rw [closeSegment_eq (appendPoint gdist st point) p ps hpp]
      constructor
      · simp only [appendPoint_segments, List.length_append, List.length_singleton]
        exact iff_of_true trivial hcc
      · intro h
        exact absurd hcc h
    · rw [if_neg hc]
      have hncc : ¬ closeCondition gdist segment_length last_index st point_idx point := by
        intro h
        exact hc ((closeCondition_iff gdist segment_length last_index st point_idx point).mp h).2
      refine ⟨⟨fun h => ?_, fun h => absurd h hncc⟩, fun _ => ?_⟩
      · rw [appendPoint_segments] at h
        exact absurd h (by simp)
      · exact appendPoint_segments gdist st point

/-- Witness for C1: the first point of a fresh track (below the target
length, not the last point) does not close a segment. -/
theorem C1_witness :
    (processPoint cdist 1 3 (initLoopState []) 0 cexP1).segments
      = (initLoopState []).segments :=
  (C1_segment_closes_exactly_on_condition cdist 1 3 (initLoopState []) 0 cexP1).2
    (by norm_num [closeCondition, pointSkipped, stepDistance, initLoopState, cexP1])

/-! ## Claim C2: source errors are swallowed, not propagated -/

/-- Claim C2 counterexample: the claim says that when the input cannot be
retrieved or parsed, `process_gpx` reports a structured/typed error upward
and does NOT convert the failure into a normal empty-list result.  In the
code (`src/gpx.py` lines 328-330) the `except` clause prints the error and
returns `[]`: the failing run produces exactly the same value as a
successful run on an empty input. -/
theorem C2_counterexample :
    process_gpx_result cdist none (Except.error SourceError.malformedXml) 1 = [] ∧
    process_gpx_result cdist none (Except.ok []) 1 = [] :=
  ⟨rfl, rfl⟩

/-- Claim C2 (amended): if the input cannot be retrieved or parsed,
`process_gpx` catches the exception, prints a diagnostic and returns the
empty list — indistinguishable from the result on an empty input; no typed
error reaches the caller. -/
theorem C2_amended_source_error_yields_empty_list
    (gdist : GPXPoint → GPXPoint → ℚ) (ai_prompt : Option (RawSegment → String))
    (segment_length : ℚ) (e : SourceError) :
    process_gpx_result gdist ai_prompt (Except.error e) segment_length = [] := rfl

/-! ## Claim C6: zero elevation is treated as the missing-elevation sentinel -/

/-- Claim C6 counterexample: the claim says a point whose elevation equals 0
is never skipped merely because its elevation is exactly 0, and in
particular a track starting with elevation-0 points processes them like any
other points.  In the code (`src/gpx.py` line 256) a leading elevation-0
point IS skipped: the two-point track starting at elevation 0 yields no
segment at all, while the identical track whose first point has elevation 3
yields one segment from that first point. -/
theorem C6_counterexample :
    (process_track_segment cdist 1 [] [c6q1, c6q2]).segments = [] ∧
    ((process_track_segment cdist 1 [] [c6q1alt, c6q2]).segments.map
      (fun s => (s.start_point, s.end_point))) = [(c6q1alt, c6q2)] ∧
    c6q1.elevation = 0 ∧ c6q1alt = { c6q1 with elevation := 3 } := by
  norm_num [process_track_segment, processPoint, appendPoint, closeSegment,
    mkRawSegment, initLoopState, get_segment_points, List.enum, List.enumFrom,
    calculate_point_geo_data, calculate_gradient, update_elevation_data,
    calculate_segment_statistics, cdist, c6q1, c6q1alt, c6q2, round_to,
    round_half_even]

/-- Claim C6 (amended): a point is skipped if and only if its elevation is
exactly 0 AND no point of the track has been processed yet
(`previous_duration` still unset); leading elevation-0 points are skipped,
while an elevation-0 point after any processed point is processed like any
other point. -/
theorem C6_amended_skip_iff_leading_zero_elevation
    (gdist : GPXPoint → GPXPoint → ℚ) (segment_length : ℚ) (last_index : ℕ)
    (st : LoopState) (point_idx : ℕ) (point : GPXPoint) :
    processPoint gdist segment_length last_index st point_idx point = st ↔
      pointSkipped st point := by
  constructor
  · intro h
    by_contra hns
    rw [processPoint_not_skip gdist segment_length last_index st point_idx point hns] at h
    by_cases hc : (appendPoint gdist st point).segment_distance ≥ segment_length ∨
        (point_idx = last_index ∧
          (appendPoint gdist st point).segment_points.length ≥ 2)
    · rw [if_pos hc] at h
      obtain ⟨p, ps, hpp⟩ := List.exists_cons_of_ne_nil
        (appendPoint_segment_points_ne_nil gdist st point)
      rw [closeSegment_eq (appendPoint gdist st point) p ps hpp] at h
      have hlen := congrArg (fun s => s.segments.length) h
      simp only [appendPoint_segments, List.length_append,
        List.length_singleton] at hlen
      exact absurd hlen (by simp)
    · rw [if_neg hc] at h
      have hlen := congrArg (fun s => s.segment_points.length) h
      simp only [appendPoint_segment_points_length] at hlen
      exact absurd hlen (by simp)
  · exact processPoint_of_skip gdist segment_length last_index st point_idx point

/-! ## Claim C7: the grade function -/

/-- Claim C7: for every distance `d` and elevation delta `e`,
`calculate_gradient` returns 0 when `d = 0` (guarded division, not an
error), and otherwise returns `(e / (d * 1000)) * 100`; for a (positive)
distance its sign equals the sign of the elevation delta
(positive = uphill). -/
theorem C7_gradient_zero_guard_and_sign (distance elevation_diff : ℚ) :
    (distance = 0 → calculate_gradient distance elevation_diff = 0) ∧
    (distance ≠ 0 → calculate_gradient distance elevation_diff =
      elevation_diff / (distance * 1000) * 100) ∧
    (0 < distance →
      ((0 < calculate_gradient distance elevation_diff ↔ 0 < elevation_diff) ∧
       (calculate_gradient distance elevation_diff < 0 ↔ elevation_diff < 0))) := by
  refine ⟨fun h => by simp [calculate_gradient, h],
    fun h => by simp [calculate_gradient, h], fun hd => ?_⟩
  have hne : distance ≠ 0 := ne_of_gt hd
  have hrw : calculate_gradient distance elevation_diff =
      elevation_diff * (100 / (distance * 1000)) := by
    unfold calculate_gradient
    rw [if_neg hne]
    ring
  have hpos : 0 < 100 / (distance * 1000) := by positivity
  rw [hrw]
  constructor
  · constructor
    · intro h
      nlinarith
    · intro h
      nlinarith
  · constructor
    · intro h
      nlinarith
    · intro h
      nlinarith

/-- Witness for C7: `calculate_gradient 2 100 = 5`, and the sign of the
grade over a positive distance follows the elevation delta. -/
theorem C7_witness :
    calculate_gradient 2 100 = 5 ∧ 0 < calculate_gradient 2 100 := by
  have h := (C7_gradient_zero_guard_and_sign 2 100).2.1 (by norm_num)
  have hsgn := ((C7_gradient_zero_guard_and_sign 2 100).2.2 (by norm_num)).1.mpr
    (by norm_num)
  exact ⟨by rw [h]; norm_num, hsgn⟩

/-! ## Claim C8: description-generation failures degrade to a placeholder -/

/-- Claim C8: for every finalized segment and caller-supplied prompt, if the
description-generation collaborator (the anthropic API call) fails,
`generate_segment_description` returns the placeholder string `"-"`; the
error never propagates past the collaborator boundary (the function is
total and returns a plain string). -/
theorem C8_description_failure_yields_placeholder
    (api : RawSegment → String → Except ApiError String)
    (segment_data : RawSegment) (prompt_str : String) (e : ApiError)
    (h : api segment_data prompt_str = Except.error e) :
    generate_segment_description api segment_data prompt_str = "-" := by
  unfold generate_segment_description
  rw [h]

/-- Witness for C8: a collaborator that always fails yields `"-"` on a
concrete segment and prompt. -/
theorem C8_witness :
    generate_segment_description (fun _ _ => Except.error ApiError.apiError)
      cexRawSeg "Describe this segment" = "-" :=
  C8_description_failure_yields_placeholder
    (fun _ _ => Except.error ApiError.apiError) cexRawSeg
    "Describe this segment" ApiError.apiError rfl

/-! ## Rounding error bounds -/

theorem round_half_even_sub_le (y : ℚ) : |(round_half_even y : ℚ) - y| ≤ 1 / 2 := by
  unfold round_half_even
  split_ifs with h1 h2
  · rw [abs_le]
    constructor <;> linarith
  · push_cast
    rw [abs_le]
    constructor <;> linarith
  · have hle := Int.floor_le (y + 1 / 2)
    have hlt := Int.lt_floor_add_one (y + 1 / 2)
    rw [abs_le]
    constructor <;> linarith

theorem round_to_two_sub_le (x : ℚ) : |round_to 2 x - x| ≤ 1 / 200 := by
  have h := round_half_even_sub_le (x * 10 ^ 2)
  rw [abs_le] at h ⊢
  unfold round_to
  norm_num at h ⊢
  constructor <;> linarith

theorem round_to_two_add_bound (a b : ℚ) :
    |round_to 2 (a + b) - (round_to 2 a + round_to 2 b)| ≤ 3 / 200 := by
  have h1 := round_to_two_sub_le (a + b)
  have h2 := round_to_two_sub_le a
  have h3 := round_to_two_sub_le b
  rw [abs_le] at h1 h2 h3 ⊢
  constructor <;> linarith

/-! ## Elevation bookkeeping lemmas -/

theorem update_elevation_data_spec (g l d : ℚ) :
    g ≤ (update_elevation_data g l d).1 ∧ l ≤ (update_elevation_data g l d).2 ∧
    (update_elevation_data g l d).1 - (update_elevation_data g l d).2 =
      g - l + d := by
  unfold update_elevation_data
  split_ifs with h1 h2 <;> dsimp only
  · exact ⟨by linarith, le_refl l, by ring⟩
  · refine ⟨le_refl g, le_add_of_nonneg_right (abs_nonneg d), ?_⟩
    rw [abs_of_neg h2]
    ring
  · have hd : d = 0 := le_antisymm (not_lt.mp h1) (not_lt.mp h2)
    exact ⟨le_refl g, le_refl l, by rw [hd]; ring⟩

theorem appendPoint_gain_loss (gdist : GPXPoint → GPXPoint → ℚ)
    (st : LoopState) (point : GPXPoint) :
    st.segment_elevation_gain ≤ (appendPoint gdist st point).segment_elevation_gain ∧
    st.segment_elevation_loss ≤ (appendPoint gdist st point).segment_elevation_loss ∧
    (appendPoint gdist st point).segment_elevation_gain -
        (appendPoint gdist st point).segment_elevation_loss =
      st.segment_elevation_gain - st.segment_elevation_loss +
        (match st.previous_point with
         | none => 0
         | some pp => point.elevation - pp.elevation) := by
  unfold appendPoint
  cases st.previous_point with
  | none => exact ⟨le_refl _, le_refl _, by ring⟩
  | some pp =>
      obtain ⟨h1, h2, h3⟩ := update_elevation_data_spec st.segment_elevation_gain
        st.segment_elevation_loss (point.elevation - pp.elevation)
      exact ⟨h1, h2, h3⟩

theorem getLastD_append_singleton {α : Type _} (l : List α) (a b : α) :
    (l ++ [a]).getLastD b = a := by
  induction l with
  | nil => rfl
  | cons x xs ih =>
      rw [List.cons_append]
      cases h : xs ++ [a] with
      | nil => exact absurd h (by simp)
      | cons y ys =>
          rw [List.getLastD_cons]
          rw [h] at ih
          exact ih

/-! ## Claim C9: a one-point-buffer segment -/

/-- Claim C9: there is an input on which `process_gpx` emits a segment whose
buffer holds exactly one point: the first point after a segment close lies
at least `segment_length` from the closing point, so the distance condition
fires on a 1-point buffer, producing a segment whose start and end point are
that same point (equal start/end elevations) while its distance is at least
the target segment length; the 2-point minimum applies only to the
last-point closing rule.  Concretely, on points at latitudes 0, 1, 2.5
(elevations 5, 6, 9) with target length 1, the second emitted segment has
`start_point = end_point = c9r3`, distance 1.5 ≥ 1, and start and end
elevation both 9. -/
theorem C9_one_point_buffer_segment :
    ((process_track_segment cdist 1 [] [c9r1, c9r2, c9r3]).segments.map
      (fun s => (s.number, s.distance, s.start_point, s.end_point))) =
      [(1, 1, c9r1, c9r2), (2, 3/2, c9r3, c9r3)] ∧
    ((track_segment_route cdist 1 [c9r1, c9r2, c9r3]).map
      (fun s => (s.start_elevation, s.end_elevation, s.distance))) =
      [(5, 6, 1), (9, 9, 3/2)] ∧
    (1 : ℚ) ≤ 3/2 := by
  norm_num [process_track_segment, track_segment_route, processPoint,
    appendPoint, closeSegment, mkRawSegment, initLoopState, get_segment_points,
    List.enum, List.enumFrom, calculate_point_geo_data, calculate_gradient,
    update_elevation_data, calculate_segment_statistics, process_segment,
    calculate_segment_duration, cdist, c9r1, c9r2, c9r3, round_to,
    round_half_even]

/-! ## Claim C5: the inter-segment gap distance is counted -/

/-- Claim C5 counterexample: the claim says an emitted segment's running
distance is the sum of its buffered points' distance-from-previous with the
first buffered point contributing 0, i.e. the distance from the previous
segment's closing point to the first point of the new segment is NOT counted.
On the run over `cexP1`-`cexP4` (latitudes 0, 1, 1.4, 1.5; target length 1),
the second emitted segment buffers exactly `cexP3, cexP4` (its start and end
point): under the claim its distance would be `cdist cexP3 cexP4 = 0.1`, but
the code records the 0.4 km gap from the closing point `cexP2` to `cexP3` on
the first buffered point and counts it, yielding distance 0.5. -/
theorem C5_counterexample :
    ((process_track_segment cdist 1 [] [cexP1, cexP2, cexP3, cexP4]).segments.map
      (fun s => (s.number, s.distance, s.start_point, s.end_point))) =
      [(1, 1, cexP1, cexP2), (2, 1/2, cexP3, cexP4)] ∧
    cdist cexP3 cexP4 = 1/10 ∧ ((1 : ℚ)/2 ≠ 1/10) := by
  norm_num [process_track_segment, processPoint, appendPoint, closeSegment,
    mkRawSegment, initLoopState, get_segment_points, List.enum, List.enumFrom,
    calculate_point_geo_data, calculate_gradient, update_elevation_data,
    calculate_segment_statistics, cdist, cexP1, cexP2, cexP3, cexP4, round_to,
    round_half_even]

/-! ## Claim C3: elevation gain/loss algebra -/

/-- Claim C3 counterexample: the claim says every emitted segment over a
monotonic elevation profile satisfies `elevation_gain - elevation_loss =
end_elevation - start_elevation`.  On the strictly increasing profile
5, 15, 19, 20 over `cexP1`-`cexP4`, the second emitted segment has gain 5
(the code also accumulates the +4 m rise from the previous segment's closing
point `cexP2` to `cexP3`), loss 0, start elevation 19 and end elevation 20:
`5 - 0 ≠ 20 - 19`. -/
theorem C3_counterexample :
    ((track_segment_route cdist 1 [cexP1, cexP2, cexP3, cexP4]).map
      (fun s => (s.elevation_gain, s.elevation_loss, s.start_elevation,
        s.end_elevation))) = [(10, 0, 5, 15), (5, 0, 19, 20)] ∧
    List.Chain' (fun a b => a ≤ b)
      [cexP1.elevation, cexP2.elevation, cexP3.elevation, cexP4.elevation] ∧
    ¬ ((5 : ℚ) - 0 = 20 - 19) := by
  norm_num [track_segment_route, process_track_segment, processPoint,
    appendPoint, closeSegment, mkRawSegment, initLoopState, get_segment_points,
    List.enum, List.enumFrom, calculate_point_geo_data, calculate_gradient,
    update_elevation_data, calculate_segment_statistics, process_segment,
    calculate_segment_duration, cdist, cexP1, cexP2, cexP3, cexP4, round_to,
    round_half_even, List.chain'_cons, List.chain'_singleton]

theorem appendPoint_phaseA_identity (gdist : GPXPoint → GPXPoint → ℚ)
    (st : LoopState) (point : GPXPoint)
    (hempty : st.segment_points = [] → st.previous_point = none ∧
      st.segment_elevation_gain = 0 ∧ st.segment_elevation_loss = 0)
    (hcons : ∀ p ps, st.segment_points = p :: ps →
      st.previous_point = some ((ps.getLastD p).point) ∧
      st.segment_elevation_gain - st.segment_elevation_loss =
        (ps.getLastD p).point.elevation - p.point.elevation)
    (p : PointData) (ps : List PointData)
    (hpp : (appendPoint gdist st point).segment_points = p :: ps) :
    (ps.getLastD p).point = point ∧
    (appendPoint gdist st point).segment_elevation_gain -
        (appendPoint gdist st point).segment_elevation_loss =
      point.elevation - p.point.elevation := by
  obtain ⟨pd, hpdp, hpdd, hbuf⟩ := appendPoint_segment_points gdist st point
  obtain ⟨-, -, hgl⟩ := appendPoint_gain_loss gdist st point
  rw [hbuf] at hpp
  cases hq : st.segment_points with
  | nil =>
      rw [hq, List.nil_append] at hpp
      injection hpp with h1 h2
      subst h1
      subst h2
      obtain ⟨hprev, hg0, hl0⟩ := hempty hq
      simp only [hprev] at hgl
      constructor
      · rw [List.getLastD_nil]
        exact hpdp
      · rw [hgl, hg0, hl0, hpdp]
        ring
  | cons q qs =>
      rw [hq, List.cons_append] at hpp
      injection hpp with h1 h2
      subst h1
      subst h2
      obtain ⟨hprev, hid⟩ := hcons q qs hq
      simp only [hprev] at hgl
      constructor
      · rw [getLastD_append_singleton]
        exact hpdp
      · rw [hgl, hid]
        ring

theorem gainLossInv_init : gainLossInv (initLoopState []) := by
  unfold gainLossInv initLoopState
  simp

theorem gainLossInv_step (gdist : GPXPoint → GPXPoint → ℚ)
    (segment_length : ℚ) (last_index : ℕ) (st : LoopState) (point_idx : ℕ)
    (point : GPXPoint) (h : gainLossInv st) :
    gainLossInv (processPoint gdist segment_length last_index st point_idx point) := by
  obtain ⟨hg, hl, hmem, hphaseA, hhead⟩ := h
  by_cases hs : pointSkipped st point
  · rw [processPoint_of_skip gdist segment_length last_index st point_idx point hs]
    exact ⟨hg, hl, hmem, hphaseA, hhead⟩
  · rw [processPoint_not_skip gdist segment_length last_index st point_idx point hs]
    obtain ⟨hg1, hl1, -⟩ := appendPoint_gain_loss gdist st point
    have hsegs1 := appendPoint_segments gdist st point
    by_cases hc : (appendPoint gdist st point).segment_distance ≥ segment_length ∨
        (point_idx = last_index ∧
          (appendPoint gdist st point).segment_points.length ≥ 2)
    · rw [if_pos hc]
      obtain ⟨p, ps, hpp⟩ := List.exists_cons_of_ne_nil
        (appendPoint_segment_points_ne_nil gdist st point)
      rw [closeSegment_eq (appendPoint gdist st point) p ps hpp]
      refine ⟨le_refl 0, le_refl 0, ?_, ?_, ?_⟩
      · dsimp only
        rw [hsegs1]
        intro s hsmem
        rcases List.mem_append.mp hsmem with hold | hnew
        · exact hmem s hold
        · rcases List.mem_singleton.mp hnew with rfl
          exact ⟨le_trans hg hg1, le_trans hl hl1⟩
      · dsimp only
        intro habs
        rw [hsegs1] at habs
        exact absurd habs (by simp)
      · dsimp only
        rw [hsegs1]
        intro s hshead
        cases hsegs : st.segments with
        | nil =>
            rw [hsegs, List.nil_append, List.head?_cons] at hshead
            injection hshead with hseq
            subst hseq
            obtain ⟨hempty, hcons⟩ := hphaseA hsegs
            obtain ⟨hlastpt, hid⟩ :=
              appendPoint_phaseA_identity gdist st point hempty hcons p ps hpp
            show (appendPoint gdist st point).segment_elevation_gain -
                (appendPoint gdist st point).segment_elevation_loss =
              ((ps.getLastD p).point).elevation - p.point.elevation
            rw [hlastpt]
            exact hid
        | cons s0 rest =>
            rw [hsegs, List.cons_append, List.head?_cons] at hshead
            injection hshead with hseq
            subst hseq
            exact hhead s0 (by rw [hsegs]; rfl)
    · rw [if_neg hc]
      refine ⟨le_trans hg hg1, le_trans hl hl1, ?_, ?_, ?_⟩
      · dsimp only
        rw [hsegs1]
        exact hmem
      · dsimp only
        rw [hsegs1]
        intro hnil
        obtain ⟨hempty, hcons⟩ := hphaseA hnil
        constructor
        · intro habs
          exact absurd habs (appendPoint_segment_points_ne_nil gdist st point)
        · intro p ps hpp
          obtain ⟨hlastpt, hid⟩ :=
            appendPoint_phaseA_identity gdist st point hempty hcons p ps hpp
          constructor
          · rw [hlastpt]
          · rw [hlastpt]
            exact hid
      · dsimp only
        rw [hsegs1]
        exact hhead

/-- Claim C3 (amended): every emitted segment has `elevation_gain ≥ 0` and
`elevation_loss ≥ 0`; the identity `elevation_gain - elevation_loss =
end_elevation - start_elevation` holds (exactly, for any profile) for the
FIRST segment emitted from a raw track-segment.  For later segments the code
also accumulates the elevation difference from the previous segment's
closing point into the new segment (so there `gain - loss = end_elevation -
(previous closing point's elevation)`), and the claimed identity can fail
even on monotonic profiles (see the counterexample). -/
theorem C3_amended_gain_loss_nonneg_and_first_segment_telescopes
    (gdist : GPXPoint → GPXPoint → ℚ) (segment_length : ℚ)
    (raw : List GPXPoint) :
    (∀ s ∈ (process_track_segment gdist segment_length [] raw).segments,
      0 ≤ s.elevation_gain ∧ 0 ≤ s.elevation_loss) ∧
    (∀ s, (process_track_segment gdist segment_length [] raw).segments.head?
        = some s →
      s.elevation_gain - s.elevation_loss =
        s.end_point.elevation - s.start_point.elevation) := by
  have h := process_track_segment_invariant gdist segment_length [] raw
    gainLossInv gainLossInv_init
    (fun st i p hst => gainLossInv_step gdist segment_length _ st i p hst)
  exact ⟨h.2.2.1, h.2.2.2.2⟩

/-- Witness for C3 (amended): on the concrete run over `cexP1`-`cexP4`, the
first emitted raw segment `cexRawSeg` satisfies the telescoping identity. -/
theorem C3_witness :
    cexRawSeg.elevation_gain - cexRawSeg.elevation_loss =
      cexRawSeg.end_point.elevation - cexRawSeg.start_point.elevation :=
  (C3_amended_gain_loss_nonneg_and_first_segment_telescopes cdist 1
    [cexP1, cexP2, cexP3, cexP4]).2 cexRawSeg
    (by norm_num [process_track_segment, processPoint, appendPoint,
      closeSegment, mkRawSegment, initLoopState, get_segment_points, List.enum,
      List.enumFrom, calculate_point_geo_data, calculate_gradient,
      update_elevation_data, calculate_segment_statistics, cdist, cexP1, cexP2,
      cexP3, cexP4, round_to, round_half_even, cexRawSeg])

/-- Claim C5 (amended): the running segment distance always equals the sum
of the buffered points' recorded distance-from-previous, and the segment
emitted at a closing step has distance equal to the pre-step running
distance plus the current point's distance-from-previous.  However, the
first buffered point of a segment records 0 only when it is the first
processed point of the whole raw track-segment: for every later segment it
records — and the segment distance counts — the distance from the previous
segment's closing point (see the counterexample). -/
theorem C5_amended_distance_is_buffer_sum (gdist : GPXPoint → GPXPoint → ℚ)
    (segment_length : ℚ) (last_index : ℕ) (st : LoopState) (point_idx : ℕ)
    (point : GPXPoint)
    (h : st.segment_distance = (st.segment_points.map PointData.distance).sum) :
    (processPoint gdist segment_length last_index st point_idx point).segment_distance =
      (((processPoint gdist segment_length last_index st point_idx point).segment_points).map
        PointData.distance).sum ∧
    (∀ s, (processPoint gdist segment_length last_index st point_idx point).segments =
        st.segments ++ [s] →
      s.distance = st.segment_distance + stepDistance gdist st point) := by
  by_cases hs : pointSkipped st point
  · rw [processPoint_of_skip gdist segment_length last_index st point_idx point hs]
    refine ⟨h, fun s hseg => ?_⟩
    exact absurd (congrArg List.length hseg) (by simp)
  · rw [processPoint_not_skip gdist segment_length last_index st point_idx point hs]
    obtain ⟨pd, hpdp, hpdd, hbuf⟩ := appendPoint_segment_points gdist st point
    have hdist := appendPoint_segment_distance gdist st point
    have hsegs1 := appendPoint_segments gdist st point
    by_cases hc : (appendPoint gdist st point).segment_distance ≥ segment_length ∨
        (point_idx = last_index ∧
          (appendPoint gdist st point).segment_points.length ≥ 2)
    · rw [if_pos hc]
      obtain ⟨p, ps, hpp⟩ := List.exists_cons_of_ne_nil
        (appendPoint_segment_points_ne_nil gdist st point)
      rw [closeSegment_eq (appendPoint gdist st point) p ps hpp]
      refine ⟨by dsimp only; simp, fun s hseg => ?_⟩
      dsimp only at hseg
      rw [hsegs1] at hseg
      have hsx := List.append_cancel_left hseg
      simp only [List.cons.injEq, and_true] at hsx
      rw [← hsx]
      show (appendPoint gdist st point).segment_distance =
        st.segment_distance + stepDistance gdist st point
      exact hdist
    · rw [if_neg hc]
      refine ⟨?_, fun s hseg => ?_⟩
      · dsimp only
        rw [hdist, hbuf, List.map_append, List.sum_append, h]
        simp [hpdd]
      · dsimp only at hseg
        rw [hsegs1] at hseg
        exact absurd (congrArg List.length hseg) (by simp)

/-- Witness for C5 (amended): on the first point of a fresh track, the
running segment distance equals the buffered distance sum. -/
theorem C5_witness :
    (processPoint cdist 1 3 (initLoopState []) 0 cexP1).segment_distance =
      (((processPoint cdist 1 3 (initLoopState []) 0 cexP1).segment_points).map
        PointData.distance).sum :=
  (C5_amended_distance_is_buffer_sum cdist 1 3 (initLoopState []) 0 cexP1
    (by simp [initLoopState])).1

/-! ## Claim C4: distance bookkeeping invariants -/

theorem distanceInv_init : distanceInv (initLoopState []) := by
  unfold distanceInv initLoopState
  simp

theorem distanceInv_step (gdist : GPXPoint → GPXPoint → ℚ)
    (segment_length : ℚ) (last_index : ℕ) (st : LoopState) (point_idx : ℕ)
    (point : GPXPoint) (h : distanceInv st) :
    distanceInv (processPoint gdist segment_length last_index st point_idx point) := by
  obtain ⟨hcum, hchain, hlast⟩ := h
  by_cases hs : pointSkipped st point
  · rw [processPoint_of_skip gdist segment_length last_index st point_idx point hs]
    exact ⟨hcum, hchain, hlast⟩
  · rw [processPoint_not_skip gdist segment_length last_index st point_idx point hs]
    have hd := appendPoint_segment_distance gdist st point
    have hcd := appendPoint_cumulative_distance gdist st point
    have hsd := appendPoint_segment_start_distance gdist st point
    have hsegs1 := appendPoint_segments gdist st point
    have hcum1 : (appendPoint gdist st point).segment_start_distance +
        (appendPoint gdist st point).segment_distance =
        (appendPoint gdist st point).cumulative_distance := by
      rw [hd, hcd, hsd, ← hcum]
      ring
    by_cases hc : (appendPoint gdist st point).segment_distance ≥ segment_length ∨
        (point_idx = last_index ∧
          (appendPoint gdist st point).segment_points.length ≥ 2)
    · rw [if_pos hc]
      obtain ⟨p, ps, hpp⟩ := List.exists_cons_of_ne_nil
        (appendPoint_segment_points_ne_nil gdist st point)
      rw [closeSegment_eq (appendPoint gdist st point) p ps hpp]
      refine ⟨?_, ?_, ?_⟩
      · dsimp only
        exact add_zero _
      · dsimp only
        rw [hsegs1, List.chain'_append]
        refine ⟨hchain, List.chain'_singleton _, ?_⟩
        intro x hx y hy
        simp only [List.head?_cons, Option.mem_def, Option.some.injEq] at hy
        subst hy
        show x.start_distance + x.distance =
          (appendPoint gdist st point).segment_start_distance
        rw [hsd]
        exact hlast x (Option.mem_def.mp hx)
      · dsimp only
        rw [hsegs1]
        intro s hs'
        rw [List.getLast?_concat] at hs'
        injection hs' with hseq
        subst hseq
        show (appendPoint gdist st point).segment_start_distance +
            (appendPoint gdist st point).segment_distance =
          (appendPoint gdist st point).cumulative_distance
        exact hcum1
    · rw [if_neg hc]
      refine ⟨?_, ?_, ?_⟩
      · dsimp only
        exact hcum1
      · dsimp only
        rw [hsegs1]
        exact hchain
      · dsimp only
        intro s hs'
        rw [hsegs1] at hs'
        rw [hsd]
        exact hlast s hs'

/-- Claim C4: for the ordered list of final segments produced from one raw
track-segment, every segment satisfies `end_distance = start_distance +
distance` within the 2-decimal rounding tolerance (each of the three fields
is rounded separately, so the discrepancy is at most 3/200 = 0.015), and for
every pair of consecutive segments the first one's `end_distance` equals
exactly the second one's `start_distance` (both are the same rounding of the
same cumulative distance). -/
theorem C4_segment_distance_invariants (gdist : GPXPoint → GPXPoint → ℚ)
    (segment_length : ℚ) (raw : List GPXPoint) :
    (∀ s ∈ track_segment_route gdist segment_length raw,
      |s.end_distance - (s.start_distance + s.distance)| ≤ 3 / 200) ∧
    List.Chain' (fun a b => a.end_distance = b.start_distance)
      (track_segment_route gdist segment_length raw) := by
  have hinv := process_track_segment_invariant gdist segment_length [] raw
    distanceInv distanceInv_init
    (fun st i p hst => distanceInv_step gdist segment_length _ st i p hst)
  constructor
  · intro s hsmem
    rw [track_segment_route] at hsmem
    obtain ⟨r, hr, rfl⟩ := List.mem_map.mp hsmem
    show |round_to 2 (r.start_distance + r.distance) -
        (round_to 2 r.start_distance + round_to 2 r.distance)| ≤ 3 / 200
    exact round_to_two_add_bound r.start_distance r.distance
  · rw [track_segment_route, List.chain'_map]
    refine List.Chain'.imp ?_ hinv.2.1
    intro a b hab
    show round_to 2 (a.start_distance + a.distance) = round_to 2 b.start_distance
    rw [hab]

/-- Witness for C4: the first final segment of the concrete run over
`cexP1`-`cexP4` satisfies the rounding-tolerance identity. -/
theorem C4_witness :
    |cexGPXSeg1.end_distance - (cexGPXSeg1.start_distance + cexGPXSeg1.distance)|
      ≤ 3 / 200 :=
  (C4_segment_distance_invariants cdist 1 [cexP1, cexP2, cexP3, cexP4]).1
    cexGPXSeg1
    (by norm_num [track_segment_route, process_track_segment, processPoint,
      appendPoint, closeSegment, mkRawSegment, initLoopState,
      get_segment_points, List.enum, List.enumFrom, calculate_point_geo_data,
      calculate_gradient, update_elevation_data, calculate_segment_statistics,
      process_segment, calculate_segment_duration, cdist, cexP1, cexP2, cexP3,
      cexP4, round_to, round_half_even, cexGPXSeg1])

/-! ## Claim C10: flat output, per-raw-segment numbering and distance reset -/

theorem appendPoint_withSegs (gdist : GPXPoint → GPXPoint → ℚ)
    (pre : List RawSegment) (st : LoopState) (point : GPXPoint) :
    appendPoint gdist (withSegs pre st) point =
      withSegs pre (appendPoint gdist st point) := by
  obtain ⟨cd, ssd, sd, sp, sg, seg, sel, sn, pp, pdur, segs⟩ := st
  unfold appendPoint withSegs
  cases pp <;> rfl

theorem closeSegment_withSegs (pre : List RawSegment) (st : LoopState) :
    closeSegment (withSegs pre st) = withSegs pre (closeSegment st) := by
  obtain ⟨cd, ssd, sd, sp, sg, seg, sel, sn, pp, pdur, segs⟩ := st
  unfold closeSegment withSegs
  cases sp with
  | nil => rfl
  | cons p ps => simp [mkRawSegment, List.append_assoc]

theorem processPoint_withSegs (gdist : GPXPoint → GPXPoint → ℚ)
    (segment_length : ℚ) (last_index : ℕ) (pre : List RawSegment)
    (st : LoopState) (point_idx : ℕ) (point : GPXPoint) :
    processPoint gdist segment_length last_index (withSegs pre st) point_idx point =
      withSegs pre (processPoint gdist segment_length last_index st point_idx point) := by
  by_cases hs : pointSkipped st point
  · have hs' : pointSkipped (withSegs pre st) point := hs
    rw [processPoint_of_skip gdist segment_length last_index _ point_idx point hs',
      processPoint_of_skip gdist segment_length last_index st point_idx point hs]
  · have hs' : ¬ pointSkipped (withSegs pre st) point := hs
    rw [processPoint_not_skip gdist segment_length last_index _ point_idx point hs',
      processPoint_not_skip gdist segment_length last_index st point_idx point hs,
      appendPoint_withSegs]
    by_cases hc : (appendPoint gdist st point).segment_distance ≥ segment_length ∨
        (point_idx = last_index ∧
          (appendPoint gdist st point).segment_points.length ≥ 2)
    · have hc' : (withSegs pre (appendPoint gdist st point)).segment_distance
          ≥ segment_length ∨
          (point_idx = last_index ∧
            (withSegs pre (appendPoint gdist st point)).segment_points.length ≥ 2) := hc
      rw [if_pos hc', if_pos hc, closeSegment_withSegs]
      rfl
    · have hc' : ¬ ((withSegs pre (appendPoint gdist st point)).segment_distance
          ≥ segment_length ∨
          (point_idx = last_index ∧
            (withSegs pre (appendPoint gdist st point)).segment_points.length ≥ 2)) := hc
      rw [if_neg hc', if_neg hc]
      rfl

theorem foldl_processPoint_withSegs (gdist : GPXPoint → GPXPoint → ℚ)
    (segment_length : ℚ) (last_index : ℕ) (pre : List RawSegment) :
    ∀ (l : List (ℕ × GPXPoint)) (st : LoopState),
      l.foldl (fun s ip => processPoint gdist segment_length last_index s ip.1 ip.2)
        (withSegs pre st) =
      withSegs pre
        (l.foldl (fun s ip => processPoint gdist segment_length last_index s ip.1 ip.2) st)
  | [], _ => rfl
  | ip :: l, st => by
      rw [List.foldl_cons, List.foldl_cons, processPoint_withSegs]
      exact foldl_processPoint_withSegs gdist segment_length last_index pre l _

theorem process_track_segment_segments_append (gdist : GPXPoint → GPXPoint → ℚ)
    (segment_length : ℚ) (pre : List RawSegment) (segment : List GPXPoint) :
    (process_track_segment gdist segment_length pre segment).segments =
      pre ++ (process_track_segment gdist segment_length [] segment).segments := by
  unfold process_track_segment
  have hinit : initLoopState pre = withSegs pre (initLoopState []) := by
    unfold initLoopState withSegs
    simp
  rw [hinit, foldl_processPoint_withSegs]
  rfl

theorem trackFold_segments_eq (gdist : GPXPoint → GPXPoint → ℚ)
    (segment_length : ℚ) :
    ∀ (track : List (List GPXPoint)) (acc : List RawSegment),
      track.foldl
        (fun acc2 seg => (process_track_segment gdist segment_length acc2 seg).segments)
        acc =
      acc ++ (track.map
        (fun seg => (process_track_segment gdist segment_length [] seg).segments)).flatten
  | [], acc => by simp
  | seg :: track, acc => by
      rw [List.foldl_cons, trackFold_segments_eq gdist segment_length track,
        process_track_segment_segments_append]
      simp [List.append_assoc]

theorem tracksFold_segments_eq (gdist : GPXPoint → GPXPoint → ℚ)
    (segment_length : ℚ) :
    ∀ (tracks : List (List (List GPXPoint))) (acc : List RawSegment),
      tracks.foldl
        (fun acc track => track.foldl
          (fun acc2 seg => (process_track_segment gdist segment_length acc2 seg).segments)
          acc)
        acc =
      acc ++ (tracks.map (fun track => (track.map
        (fun seg => (process_track_segment gdist segment_length [] seg).segments)).flatten)).flatten
  | [], acc => by simp
  | track :: tracks, acc => by
      rw [List.foldl_cons, tracksFold_segments_eq gdist segment_length tracks,
        trackFold_segments_eq]
      simp [List.append_assoc]

theorem range'_one_concat (n : ℕ) :
    List.range' 1 (n + 1) = List.range' 1 n ++ [n + 1] := by
  have h := @List.range'_concat 1 1 n
  simpa [Nat.add_comm] using h

theorem numberInv_init : numberInv (initLoopState []) := by
  unfold numberInv initLoopState
  simp

theorem numberInv_step (gdist : GPXPoint → GPXPoint → ℚ)
    (segment_length : ℚ) (last_index : ℕ) (st : LoopState) (point_idx : ℕ)
    (point : GPXPoint) (h : numberInv st) :
    numberInv (processPoint gdist segment_length last_index st point_idx point) := by
  obtain ⟨hnum, hmap, hempty, hheadstart⟩ := h
  by_cases hs : pointSkipped st point
  · rw [processPoint_of_skip gdist segment_length last_index st point_idx point hs]
    exact ⟨hnum, hmap, hempty, hheadstart⟩
  · rw [processPoint_not_skip gdist segment_length last_index st point_idx point hs]
    have hsegs1 := appendPoint_segments gdist st point
    have hnum1 := appendPoint_segment_number gdist st point
    have hsd1 := appendPoint_segment_start_distance gdist st point
    by_cases hc : (appendPoint gdist st point).segment_distance ≥ segment_length ∨
        (point_idx = last_index ∧
          (appendPoint gdist st point).segment_points.length ≥ 2)
    · rw [if_pos hc]
      obtain ⟨p, ps, hpp⟩ := List.exists_cons_of_ne_nil
        (appendPoint_segment_points_ne_nil gdist st point)
      rw [closeSegment_eq (appendPoint gdist st point) p ps hpp]
      refine ⟨?_, ?_, ?_, ?_⟩
      · dsimp only
        rw [hsegs1, hnum1, List.length_append, List.length_singleton, hnum]
      · dsimp only
        rw [hsegs1, List.map_append, List.length_append, List.length_singleton,
          hmap]
        have hnewnum : (List.map RawSegment.number [mkRawSegment (appendPoint gdist st point) p ps]) = [st.segments.length + 1] := by
          show [(appendPoint gdist st point).segment_number] = [st.segments.length + 1]
          rw [hnum1, hnum]
        rw [hnewnum, range'_one_concat]
      · dsimp only
        intro habs
        rw [hsegs1] at habs
        exact absurd habs (by simp)
      · dsimp only
        rw [hsegs1]
        intro s hs'
        cases hsegs : st.segments with
        | nil =>
            rw [hsegs, List.nil_append, List.head?_cons] at hs'
            injection hs' with hseq
            subst hseq
            show (appendPoint gdist st point).segment_start_distance = 0
            rw [hsd1]
            exact hempty hsegs
        | cons s0 rest =>
            rw [hsegs, List.cons_append, List.head?_cons] at hs'
            injection hs' with hseq
            subst hseq
            exact hheadstart s0 (by rw [hsegs]; rfl)
    · rw [if_neg hc]
      refine ⟨?_, ?_, ?_, ?_⟩
      · dsimp only
        rw [hnum1, hsegs1]
        exact hnum
      · dsimp only
        rw [hsegs1]
        exact hmap
      · dsimp only
        rw [hsegs1, hsd1]
        exact hempty
      · dsimp only
        rw [hsegs1]
        exact hheadstart

/-- Claim C10: `process_gpx` returns one flat list concatenating, in order,
the segments of all raw track-segments of all tracks of the input (each raw
track-segment processed from a fully reset loop state); within one raw
track-segment the segment numbers are contiguous `1, 2, ...` in emission
order — so at every raw track-segment boundary the numbering restarts at 1 —
and the first segment of each raw track-segment starts at cumulative
distance 0. -/
theorem C10_flat_output_numbering_and_distance_reset
    (gdist : GPXPoint → GPXPoint → ℚ) (segment_length : ℚ)
    (ai_prompt : Option (RawSegment → String))
    (tracks : List (List (List GPXPoint))) :
    process_gpx gdist ai_prompt tracks segment_length =
      ((tracks.map (fun track => (track.map
        (fun seg => (process_track_segment gdist segment_length [] seg).segments)).flatten)).flatten).map
        (process_segment ai_prompt) ∧
    (∀ raw : List GPXPoint,
      (process_track_segment gdist segment_length [] raw).segments.map
          RawSegment.number =
        List.range' 1 (process_track_segment gdist segment_length [] raw).segments.length) ∧
    (∀ (raw : List GPXPoint) (s : RawSegment),
      (process_track_segment gdist segment_length [] raw).segments.head? = some s →
      s.start_distance = 0) := by
  have hinv : ∀ raw, numberInv (process_track_segment gdist segment_length [] raw) :=
    fun raw => process_track_segment_invariant gdist segment_length [] raw
      numberInv numberInv_init
      (fun st i p hst => numberInv_step gdist segment_length _ st i p hst)
  refine ⟨?_, fun raw => (hinv raw).2.1, fun raw s hs => (hinv raw).2.2.2 s hs⟩
  show (tracks.foldl
      (fun acc track => track.foldl
        (fun acc2 seg => (process_track_segment gdist segment_length acc2 seg).segments)
        acc)
      []).map (process_segment ai_prompt) = _
  rw [tracksFold_segments_eq, List.nil_append]

/-- Witness for C10: on the concrete run over `cexP1`-`cexP4`, the first
emitted raw segment starts at cumulative distance 0. -/
theorem C10_witness : cexRawSeg.start_distance = 0 :=
  (C10_flat_output_numbering_and_distance_reset cdist 1 none
    [[[cexP1, cexP2, cexP3, cexP4]]]).2.2 [cexP1, cexP2, cexP3, cexP4] cexRawSeg
    (by norm_num [process_track_segment, processPoint, appendPoint,
      closeSegment, mkRawSegment, initLoopState, get_segment_points, List.enum,
      List.enumFrom, calculate_point_geo_data, calculate_gradient,
      update_elevation_data, calculate_segment_statistics, cdist, cexP1, cexP2,
      cexP3, cexP4, round_to, round_half_even, cexRawSeg])
